import Mathlib

/-!
Verification development for the rendering and decoding core of the
HTTPolice HTTP conformance checker (files `httpolice/message.py` and
`httpolice/report.py`).

Conventions of the embedding:
* raw bytes are `List Nat` (each element < 256 in practice);
* unicode text is `List Nat` of code points (Python 2 `unicode`);
* machine integers do not occur (all arithmetic is chunk sizes and
  lengths, which Python holds as unbounded ints, so `Nat` is exact);
* the message object is a record; mutation is explicit record update;
* fallible parsing returns `Except ParseError` / `Option`.

Parts of the repository that the two source files import but that are
not themselves part of the source under study (the `httpolice.syntax`
chunk grammar, `httpolice.structure.okay`, the header view, the notice
markup classes, the known-token registry, Python's `codecs`/`json`
libraries and the `dominate` HTML tree) are modelled from the
specification; each such definition carries a doc comment saying so.
-/

namespace Httpolice

/-- Raw byte strings (Python 2 `str`). -/
abbrev Bytes := List Nat

/-- Unicode text as a list of code points (Python 2 `unicode`). -/
abbrev UText := List Nat

/-- Code points of a Lean string literal, used to spell concrete byte
strings and texts. -/
def str_codes (s : String) : List Nat := s.data.map Char.toNat

/-- Body field of a message: Python `None`, the `Unparseable` marker
from `httpolice.common`, or a byte string. -/
inductive BodyValue where
  | absent
  | unparseable
  | bytes (bs : Bytes)
deriving DecidableEq, Repr

/-- Header or trailer entry: an immutable (name, raw value) pair of
byte strings. -/
structure HeaderEntry where
  name : Bytes
  value : Bytes
deriving DecidableEq, Repr

/-- Diagnostic finding attached to a message by `complain`: the notice
ident plus the optional extra argument (`error=` or `coding=`),
rendered to a string. -/
structure Finding where
  ident : Nat
  detail : Option String
deriving DecidableEq, Repr

/-- Position-tagged failure of the byte-stream grammar.  Modelled from
the spec: `httpolice.parse.ParseError` is not in the source under
study; each parse operation either succeeds with a consumed value or
fails with an error describing the failure. -/
structure ParseError where
  msg : String
deriving DecidableEq, Repr

mutual

/-- Structured data (parsed JSON) supplied upstream on a message.
Modelled from the spec: the JSON parser is an external collaborator;
only the shape of its values matters here. -/
inductive Json where
  | null
  | boolJ (b : Bool)
  | numJ (n : Int)
  | strJ (s : String)
  | arrJ (l : JsonList)
  | objJ (l : JsonFields)

/-- Items of a JSON array. -/
inductive JsonList where
  | nil
  | cons (hd : Json) (tl : JsonList)

/-- Fields of a JSON object. -/
inductive JsonFields where
  | nil
  | cons (key : String) (val : Json) (tl : JsonFields)

end

/-- Message model from `httpolice.message.Message.__init__`: version,
ordered header entries, body, trailer entries, retained raw bytes, and
the complaint list from `common.ReportNode`.  The `headers` view
(external header-semantics layer) is modelled by its observable
outputs used in the source: the Transfer-Encoding / Content-Encoding
presence checks and the declared body charset; the upstream-provided
`decoded_body` and `json_data` fields complete the record. -/
structure Message where
  version : String
  header_entries : List HeaderEntry
  body : BodyValue
  trailer_entries : Option (List HeaderEntry)
  raw : Option Bytes
  complaints : List Finding
  transfer_encoding : Bool
  content_encoding : Bool
  decoded_body : BodyValue
  json_data : Option Json
  body_charset : Option String

/-! ### Chunked transfer-coding grammar

Modelled from the spec: the combinators `syntax.chunk`,
`syntax.trailer_part` and `syntax.crlf` live in `httpolice.syntax`,
which is not in the source under study.  The spec describes the
grammar: a chunk is a length-prefixed segment (hexadecimal size line,
CRLF, that many data bytes, CRLF; a zero size line terminates), a
trailer part is zero or more header field lines, and the stream ends
with a final CRLF. -/

/-- Hexadecimal digit test on a byte. -/
def is_hex_byte (b : Nat) : Bool :=
  decide ((48 ≤ b ∧ b ≤ 57) ∨ (97 ≤ b ∧ b ≤ 102) ∨ (65 ≤ b ∧ b ≤ 70))

/-- Value of a hexadecimal digit byte. -/
def hex_val (b : Nat) : Nat :=
  if 48 ≤ b ∧ b ≤ 57 then b - 48
  else if 97 ≤ b ∧ b ≤ 102 then b - 87
  else if 65 ≤ b ∧ b ≤ 70 then b - 55
  else 0

/-- Parse a maximal non-empty run of hexadecimal digits into its
value. -/
def parse_hex_digits (s : Bytes) : Option (Nat × Bytes) :=
  if s.takeWhile is_hex_byte = [] then none
  else some ((s.takeWhile is_hex_byte).foldl (fun acc b => 16 * acc + hex_val b) 0,
             s.dropWhile is_hex_byte)

/-- Consume one CRLF pair. -/
def expect_crlf : Bytes → Option Bytes
  | 13 :: 10 :: r => some r
  | _ => none

/-- Consume exactly `n` bytes of chunk data. -/
def take_n (n : Nat) (s : Bytes) : Option (Bytes × Bytes) :=
  if n ≤ s.length then some (s.take n, s.drop n) else none

/-- Parse one chunk, returning its data (empty for the terminating
zero-size chunk).  Models `syntax.chunk.parse`. -/
def parse_chunk (s : Bytes) : Except ParseError (Bytes × Bytes) :=
  match parse_hex_digits s with
  | none => .error ⟨"chunk-size expected"⟩
  | some (n, r1) =>
    match expect_crlf r1 with
    | none => .error ⟨"CRLF expected after chunk size"⟩
    | some r2 =>
      if n = 0 then .ok ([], r2)
      else
        match take_n n r2 with
        | none => .error ⟨"truncated chunk data"⟩
        | some (d, r3) =>
          match expect_crlf r3 with
          | none => .error ⟨"CRLF expected after chunk data"⟩
          | some r4 => .ok (d, r4)

/-- Loop of `parse_chunked`: read chunks until the zero-size chunk.
The fuel argument is structural bookkeeping only; `parse_chunks` below
supplies one unit more than the input length, and every chunk consumes
at least three bytes, so the fuel never runs out. -/
def parse_chunks_aux : Nat → Bytes → Except ParseError (List Bytes × Bytes)
  | 0, _ => .error ⟨"chunk stream does not terminate"⟩
  | fuel + 1, s =>
    match parse_chunk s with
    | .error e => .error e
    | .ok (d, r) =>
      if d = [] then .ok ([], r)
      else
        match parse_chunks_aux fuel r with
        | .error e => .error e
        | .ok (ds, r2) => .ok (d :: ds, r2)

/-- Read the whole chunk sequence of a stream. -/
def parse_chunks (s : Bytes) : Except ParseError (List Bytes × Bytes) :=
  parse_chunks_aux (s.length + 1) s

/-- Token character of a header field name (RFC 7230 `tchar`). -/
def is_tchar (b : Nat) : Bool :=
  decide ((48 ≤ b ∧ b ≤ 57) ∨ (65 ≤ b ∧ b ≤ 90) ∨ (97 ≤ b ∧ b ≤ 122) ∨
    b = 33 ∨ b = 35 ∨ b = 36 ∨ b = 37 ∨ b = 38 ∨ b = 39 ∨ b = 42 ∨
    b = 43 ∨ b = 45 ∨ b = 46 ∨ b = 94 ∨ b = 95 ∨ b = 96 ∨ b = 124 ∨ b = 126)

/-- Byte allowed in a raw header field value (printable ASCII, HTAB,
or a high byte; never CR or LF). -/
def is_value_byte (b : Nat) : Bool :=
  decide (b = 9 ∨ (32 ≤ b ∧ b ≤ 126) ∨ (128 ≤ b ∧ b ≤ 255))

/-- Parse one trailer field line `name ":" value CRLF`. -/
def parse_trailer_line (s : Bytes) : Option (HeaderEntry × Bytes) :=
  if s.takeWhile is_tchar = [] then none
  else
    match s.dropWhile is_tchar with
    | 58 :: r1 =>
      match expect_crlf (r1.dropWhile is_value_byte) with
      | some r2 => some (⟨s.takeWhile is_tchar, r1.takeWhile is_value_byte⟩, r2)
      | none => none
    | _ => none

/-- Zero or more trailer field lines, greedily.  Fuel as in
`parse_chunks_aux`: every line consumes at least four bytes, so the
fuel supplied by `parse_trailer_part` never runs out. -/
def parse_trailers_aux : Nat → Bytes → List HeaderEntry × Bytes
  | 0, s => ([], s)
  | fuel + 1, s =>
    match parse_trailer_line s with
    | none => ([], s)
    | some (e, r) =>
      let (es, r2) := parse_trailers_aux fuel r
      (e :: es, r2)

/-- Models `syntax.trailer_part.parse`: zero or more trailer lines. -/
def parse_trailer_part (s : Bytes) : List HeaderEntry × Bytes :=
  parse_trailers_aux (s.length + 1) s

/-- Full chunked stream: chunks until the zero chunk, the trailer
part, then the final CRLF.  Mirrors the `try` block of
`message.parse_chunked`. -/
def parse_chunked_data (s : Bytes) :
    Except ParseError (List Bytes × List HeaderEntry × Bytes) :=
  match parse_chunks s with
  | .error e => .error e
  | .ok (chunks, r1) =>
    let (trailers, r2) := parse_trailer_part r1
    match expect_crlf r2 with
    | none => .error ⟨"CRLF expected after trailer section"⟩
    | some r3 => .ok (chunks, trailers, r3)

/-- Embedding of `httpolice.message.parse_chunked`: on success the
body becomes the concatenation of the chunk data and the trailer
entries are set; on any parse failure the message gets one complaint
with notice ident 1005, the body becomes `Unparseable`, and `False`
is returned. -/
def parse_chunked (msg : Message) (s : Bytes) : Bool × Message :=
  match parse_chunked_data s with
  | .error e =>
    (false, { msg with
                complaints := msg.complaints ++ [⟨1005, some e.msg⟩],
                body := .unparseable })
  | .ok (chunks, trailers, _) =>
    (true, { msg with
               body := .bytes chunks.flatten,
               trailer_entries := some trailers })

/-- Embedding of `httpolice.message.decode_transfer_coding`: the
residual coding after the outermost chunked coding was peeled off.
Transfer-coding tokens (`httpolice.known.tc`) are modelled as their
string names. -/
def decode_transfer_coding (msg : Message) (coding : String) : Message :=
  if coding = "chunked" then
    -- The outermost chunked has already been peeled off at this point.
    { msg with complaints := msg.complaints ++ [⟨1002, none⟩],
               body := .unparseable }
  else
    { msg with complaints := msg.complaints ++ [⟨1003, some coding⟩],
               body := .unparseable }

/-! ### Encoding well-formed chunked data

A well-formed chunked stream is described by the payload list and the
trailer list it carries; `encode_chunked` writes such a stream (with
canonical lower-case chunk-size spellings). -/

/-- Hexadecimal digit byte (lower case) for a value below 16. -/
def hex_digit_code (d : Nat) : Nat := if d < 10 then 48 + d else 87 + d

/-- Hexadecimal spelling of a number, most significant digit first,
at least one digit. -/
def nat_to_hex (n : Nat) : Bytes :=
  if _hlt : n < 16 then [hex_digit_code n]
  else nat_to_hex (n / 16) ++ [hex_digit_code (n % 16)]
termination_by n
decreasing_by exact Nat.div_lt_self (by omega) (by omega)

/-- Wire form of one non-terminating chunk. -/
def encode_chunk (c : Bytes) : Bytes :=
  nat_to_hex c.length ++ [13, 10] ++ c ++ [13, 10]

/-- Wire form of a chunk sequence followed by the zero-size chunk. -/
def encode_chunks (chunks : List Bytes) : Bytes :=
  (chunks.map encode_chunk).flatten ++ [48, 13, 10]

/-- Wire form of one trailer field line. -/
def encode_trailer (e : HeaderEntry) : Bytes :=
  e.name ++ [58] ++ e.value ++ [13, 10]

/-- Trailer entry whose wire form the trailer-line grammar can read
back: non-empty token name and CR/LF-free value. -/
def valid_entry (e : HeaderEntry) : Bool :=
  !e.name.isEmpty && e.name.all is_tchar && e.value.all is_value_byte

/-- Wire form of a complete well-formed chunked stream: chunks, the
zero-size chunk, trailer lines, final CRLF. -/
def encode_chunked (chunks : List Bytes) (trailers : List HeaderEntry) : Bytes :=
  encode_chunks chunks ++ (trailers.map encode_trailer).flatten ++ [13, 10]

/-- Concrete message used by witnesses: fresh message with a
`Transfer-Encoding: chunked` header, as in the spec scenario. -/
def msg_ex : Message :=
  { version := "HTTP/1.1"
    header_entries := [⟨str_codes "Transfer-Encoding", str_codes "chunked"⟩]
    body := .absent
    trailer_entries := none
    raw := none
    complaints := []
    transfer_encoding := true
    content_encoding := false
    decoded_body := .absent
    json_data := none
    body_charset := none }

/-! ### Body display pipeline (`report.displayable_body`) -/

/-- Modelled from the spec: `okay` from `httpolice.structure` is not
under src/.  Stage 1 of the Body Display Pipeline returns immediately
when the body is absent, empty, or `Unparseable`, so a body value is
okay exactly when it is a non-empty byte string. -/
def okay : BodyValue → Bool
  | .absent => false
  | .unparseable => false
  | .bytes bs => !bs.isEmpty

/-- Byte string held by a body value (empty otherwise). -/
def bytes_of : BodyValue → Bytes
  | .bytes bs => bs
  | _ => []

/-- Continuation byte of a UTF-8 sequence. -/
def is_cont_byte (b : Nat) : Bool := decide (128 ≤ b ∧ b ≤ 191)

/-- Model of Python's `decode('utf-8', 'replace')` (an external
codec): standard UTF-8 decoding where every invalid byte or truncated
sequence contributes the replacement character U+FFFD.  The exact
replacement-character count on some truncated multi-byte tails differs
from CPython, which no claim depends on.  The fuel is structural
bookkeeping only; `decode_utf8_replace` supplies one unit more than
the byte count and every step consumes at least one byte. -/
def decode_utf8_aux : Nat → Bytes → UText
  | 0, _ => []
  | _ + 1, [] => []
  | fuel + 1, b :: r =>
    if b < 128 then b :: decode_utf8_aux fuel r
    else if 194 ≤ b ∧ b ≤ 223 then
      match r with
      | c :: r2 =>
        if is_cont_byte c then
          ((b - 192) * 64 + (c - 128)) :: decode_utf8_aux fuel r2
        else 65533 :: decode_utf8_aux fuel r
      | [] => [65533]
    else if 224 ≤ b ∧ b ≤ 239 then
      match r with
      | c1 :: c2 :: r3 =>
        if is_cont_byte c1 && is_cont_byte c2 then
          ((b - 224) * 4096 + (c1 - 128) * 64 + (c2 - 128))
            :: decode_utf8_aux fuel r3
        else 65533 :: decode_utf8_aux fuel r
      | _ => 65533 :: decode_utf8_aux fuel r
    else if 240 ≤ b ∧ b ≤ 244 then
      match r with
      | c1 :: c2 :: c3 :: r4 =>
        if is_cont_byte c1 && is_cont_byte c2 && is_cont_byte c3 then
          ((b - 240) * 262144 + (c1 - 128) * 4096 + (c2 - 128) * 64
            + (c3 - 128)) :: decode_utf8_aux fuel r4
        else 65533 :: decode_utf8_aux fuel r
      | _ => 65533 :: decode_utf8_aux fuel r
    else 65533 :: decode_utf8_aux fuel r

/-- UTF-8 decoding with replacement of a whole byte string. -/
def decode_utf8_replace (s : Bytes) : UText := decode_utf8_aux (s.length + 1) s

/-- Indentation blanks. -/
def spaces (n : Nat) : UText := List.replicate n 32

/-- JSON string escaping (quote, backslash, control characters). -/
def json_escape_code (c : Nat) : UText :=
  if c = 34 then [92, 34]
  else if c = 92 then [92, 92]
  else if c < 32 then
    [92, 117, 48, 48, hex_digit_code (c / 16), hex_digit_code (c % 16)]
  else [c]

/-- Quoted JSON string literal. -/
def json_str_text (s : String) : UText :=
  34 :: ((str_codes s).map json_escape_code).flatten ++ [34]

mutual

/-- Model of `json.dumps(..., indent=2, ensure_ascii=False)` (the
Python standard library, an external collaborator): pretty-printing
with two-space indentation and non-ASCII characters left unescaped. -/
def json_dumps_val : Nat → Json → UText
  | _, .null => str_codes "null"
  | _, .boolJ true => str_codes "true"
  | _, .boolJ false => str_codes "false"
  | _, .numJ n => str_codes (toString n)
  | _, .strJ s => json_str_text s
  | _, .arrJ .nil => str_codes "[]"
  | ind, .arrJ (l@(.cons _ _)) =>
    str_codes "[" ++ [10] ++ json_dumps_items (ind + 2) l ++
      [10] ++ spaces ind ++ str_codes "]"
  | _, .objJ .nil => str_codes "\x7b\x7d"
  | ind, .objJ (l@(.cons _ _ _)) =>
    str_codes "\x7b" ++ [10] ++ json_dumps_fields (ind + 2) l ++
      [10] ++ spaces ind ++ str_codes "\x7d"

/-- Array items, one per line, comma-separated. -/
def json_dumps_items : Nat → JsonList → UText
  | _, .nil => []
  | ind, .cons x .nil => spaces ind ++ json_dumps_val ind x
  | ind, .cons x (tl@(.cons _ _)) =>
    spaces ind ++ json_dumps_val ind x ++ str_codes "," ++ [10] ++
      json_dumps_items ind tl

/-- Object fields, one per line, comma-separated. -/
def json_dumps_fields : Nat → JsonFields → UText
  | _, .nil => []
  | ind, .cons k v .nil =>
    spaces ind ++ json_str_text k ++ str_codes ": " ++ json_dumps_val ind v
  | ind, .cons k v (tl@(.cons _ _ _)) =>
    spaces ind ++ json_str_text k ++ str_codes ": " ++ json_dumps_val ind v ++
      str_codes "," ++ [10] ++ json_dumps_fields ind tl

end

/-- Pretty-printed form of a JSON value. -/
def json_dumps (j : Json) : UText := json_dumps_val 0 j

/-- Modelled from the spec: `message.body_charset` is not under src/;
the message metadata either declares a charset or not (`or 'UTF-8'` in
the source turns an absent or empty declaration into UTF-8). -/
def charset_of (msg : Message) : String :=
  match msg.body_charset with
  | none => "UTF-8"
  | some c => if c = "" then "UTF-8" else c

/-- ASCII case folding of a charset name, on code points. -/
def lower_codes (s : String) : List Nat :=
  (str_codes s).map (fun c => if 65 ≤ c ∧ c ≤ 90 then c + 32 else c)

/-- Model of Python `codecs.lookup` (standard library): map a charset
name, case-insensitively over a small alias table, to the canonical
codec name; unknown names fail the lookup. -/
def codecs_lookup (name : String) : Option String :=
  if lower_codes name = str_codes "utf-8" ∨ lower_codes name = str_codes "utf8" ∨
      lower_codes name = str_codes "u8" then
    some "utf-8"
  else if lower_codes name = str_codes "iso-8859-1" ∨
      lower_codes name = str_codes "latin-1" ∨
      lower_codes name = str_codes "latin1" ∨
      lower_codes name = str_codes "iso8859-1" then
    some "iso-8859-1"
  else if lower_codes name = str_codes "ascii" ∨
      lower_codes name = str_codes "us-ascii" then
    some "ascii"
  else none

/-- Codec chosen by `displayable_body`: the declared charset if the
lookup succeeds, else the silent UTF-8 fallback. -/
def chosen_codec (msg : Message) : String :=
  (codecs_lookup (charset_of msg)).getD "utf-8"

/-- Model of byte decoding with replacement under the chosen codec. -/
def decode_with (codec : String) (bs : Bytes) : UText :=
  if codec = "utf-8" then decode_utf8_replace bs
  else if codec = "iso-8859-1" then bs
  else bs.map (fun b => if b < 128 then b else 65533)

/-- Transform notes appended by `displayable_body`, one constructor
per distinct format string of the source; `transform_text` recovers
the source text. -/
inductive Transform where
  | removing_te
  | removing_ce
  | pretty_printing
  | decoding_from (charset : String)
  | taking_first (n : Nat)
  | replacing_nonprintable
deriving DecidableEq, Repr

/-- Source text of each transform note. -/
def transform_text : Transform → String
  | .removing_te => "removing Transfer-Encoding"
  | .removing_ce => "removing Content-Encoding"
  | .pretty_printing => "pretty-printing"
  | .decoding_from c => "decoding from " ++ c
  | .taking_first n => "taking the first " ++ toString n ++ " characters"
  | .replacing_nonprintable =>
    "replacing non-printable characters with the � sign"

/-- Modelled from the spec: `has_nonprintable`/`printable` live in
`httpolice.util.text`, not under src/.  A code point is printable
unless it is a C0 control other than HTAB/LF/CR, DEL, or a C1
control; the replacement sign U+FFFD is printable. -/
def is_printable_code (c : Nat) : Bool :=
  (decide (32 ≤ c) || decide (c = 9) || decide (c = 10) || decide (c = 13)) &&
  (decide (c < 127) || decide (160 ≤ c))

/-- Does the text contain a non-printable character? -/
def has_nonprintable (t : UText) : Bool := t.any (fun c => !is_printable_code c)

/-- Replace every non-printable character with U+FFFD. -/
def printable (t : UText) : UText :=
  t.map (fun c => if is_printable_code c then c else 65533)

/-- Return value of `displayable_body`: the body value returned
unchanged by the early return, or display text. -/
inductive DispOut where
  | bodyOut (b : BodyValue)
  | textOut (t : UText)
deriving DecidableEq, Repr

/-- Working text after the content-decoding stage (lines 70 and 74-75
of report.py): the UTF-8-with-replacement decoding of the
content-decoded body when one is available, else of the raw body. -/
def text_after_decoded (msg : Message) : UText :=
  if okay msg.decoded_body then decode_utf8_replace (bytes_of msg.decoded_body)
  else decode_utf8_replace (bytes_of msg.body)

/-- Working text right before the truncation stage: the
pretty-printed structured data if available, else the charset-decoded
content-decoded body if available, else the baseline UTF-8 text. -/
def working_text (msg : Message) : UText :=
  if msg.json_data.isSome then json_dumps (msg.json_data.getD .null)
  else if okay msg.decoded_body then
    decode_with (chosen_codec msg) (bytes_of msg.decoded_body)
  else text_after_decoded msg

/-- Transform notes accumulated by the stages before truncation, in
source order: Transfer-Encoding note, Content-Encoding note (only
when a content-decoded body is available and the header is present),
then the pretty-printing or charset note. -/
def pipeline_transforms (msg : Message) : List Transform :=
  (if msg.transfer_encoding then [Transform.removing_te] else []) ++
  (if okay msg.decoded_body && msg.content_encoding then
    [Transform.removing_ce] else []) ++
  (if msg.json_data.isSome then [Transform.pretty_printing]
   else if okay msg.decoded_body then
     (if chosen_codec msg = "utf-8" then []
      else [Transform.decoding_from (charset_of msg)])
   else [])

/-- Text after the truncation stage, right before sanitization. -/
def pre_sanitize_text (msg : Message) : UText :=
  if (working_text msg).length > 5000 then (working_text msg).take 5000
  else working_text msg

/-- Embedding of `report.displayable_body`: early return for a body
that is not okay; otherwise the staged working text, truncated to
5000 characters when longer, sanitized when it holds a non-printable
character, together with the ordered transform notes. -/
def displayable_body (msg : Message) : DispOut × List Transform :=
  if okay msg.body then
    let ts := pipeline_transforms msg ++
      (if (working_text msg).length > 5000 then [Transform.taking_first 5000]
       else [])
    if has_nonprintable (pre_sanitize_text msg) then
      (.textOut (printable (pre_sanitize_text msg)),
       ts ++ [Transform.replacing_nonprintable])
    else (.textOut (pre_sanitize_text msg), ts)
  else (.bodyOut msg.body, [])

/-- Concrete message with an unparseable body, for the C4 witness. -/
def msg_c4 : Message := { msg_ex with body := .unparseable }

/-- Concrete message with an okay content-decoded body and no
Content-Encoding header, for the C5 counterexample. -/
def msg_c5 : Message :=
  { msg_ex with body := .bytes [97], decoded_body := .bytes [98],
                transfer_encoding := false }

/-- Concrete message with an okay content-decoded body and a
Content-Encoding header, for the C5 witness. -/
def msg_c5b : Message := { msg_c5 with content_encoding := true }

/-- Concrete message whose working text is 5001 characters long and
starts with a non-printable character, for C6. -/
def msg_c6 : Message :=
  { msg_ex with body := .bytes (1 :: List.replicate 5000 97),
                transfer_encoding := false }

/-- Concrete message whose short body holds a non-printable byte, for
the C7 witness. -/
def msg_c7 : Message :=
  { msg_ex with body := .bytes [7, 104, 105], transfer_encoding := false }

/-! ### Markup resolution grammar (`report.piece_to_text` /
`report.piece_to_html`)

Modelled from the spec where noted: the notice markup classes
(`notice.Paragraph`, `notice.Ref`, `notice.Cite`), `Citation`, the
known-token registry and the `dominate` HTML tree are outside the
source under study.  Pieces with an optional content field are split
into two constructors (content present / content `None`). -/

/-- Bibliographic citation: title and URL (`httpolice.citation`). -/
structure Cit where
  title : String
  url : String
deriving DecidableEq, Repr

/-- Known domain token from the external registry: its runtime type
name, textual form, optional display title and optional citation
URL. -/
structure Tok where
  kind : String
  text : String
  title : Option String
  url : Option String
deriving DecidableEq, Repr

/-- Tree node a `Ref` can resolve to: a header entry, a header view
over several entries, or a known token.  The numbers model the
identity-based anchor ids of `for_object`. -/
inductive Target where
  | entryT (name : Tok) (anchor : Nat)
  | viewT (name : Tok) (anchors : List Nat)
  | tokT (t : Tok) (anchor : Nat)
deriving DecidableEq, Repr

mutual

/-- Markup piece of a notice: literal text, sequence, paragraph,
reference (with or without inline content), citation (with or without
quoted content), bare citation info, known token, or an opaque object
carrying a content facet (the catch-all `expand_piece` case). -/
inductive Piece where
  | textP (s : String)
  | seqP (ps : PieceList)
  | par (p : Piece)
  | refContent (p : Piece) (key : String)
  | refPlain (key : String)
  | citeQuoted (q : Piece) (info : Cit)
  | citePlain (info : Cit)
  | citationP (c : Cit)
  | tokenP (t : Tok)
  | wrapped (p : Piece)

/-- Items of a `Sequence` piece. -/
inductive PieceList where
  | nil
  | cons (hd : Piece) (tl : PieceList)

end

/-- Resolution context of a finding: keys to target nodes.  Modelled
from the spec: `resolve_reference` is supplied by the notice layer. -/
abbrev Ctx := List (String × Target)

/-- Resolve a reference key against the context. -/
def resolve_reference (key : String) (ctx : Ctx) : Option Target :=
  (ctx.find? (fun e => e.1 == key)).map (fun e => e.2)

/-- Whitespace for the quote-collapsing of `Cite` rendering. -/
def is_ws_code (c : Nat) : Bool := decide (c = 32 ∨ c = 9 ∨ c = 10 ∨ c = 13)

/-- Collapse every whitespace run to a single space (model of
`re.sub` with a whitespace pattern). -/
def squish_go : Bool → UText → UText
  | _, [] => []
  | prevWs, c :: r =>
    if is_ws_code c then
      if prevWs then squish_go true r else 32 :: squish_go true r
    else c :: squish_go false r

/-- Strip leading and trailing whitespace. -/
def trim_ws (l : UText) : UText :=
  ((l.dropWhile is_ws_code).reverse.dropWhile is_ws_code).reverse

/-- Model of `re.sub(whitespace, space, s).strip()`. -/
def collapse_ws (l : UText) : UText := trim_ws (squish_go false l)

/-- Text rendering of a bare target node: the catch-all
`expand_piece` unwraps a header entry or header view to its name and
a known token to its textual form. -/
def target_to_text : Target → UText
  | .entryT n _ => str_codes n.text
  | .viewT n _ => str_codes n.text
  | .tokT t _ => str_codes t.text

mutual

/-- Embedding of `report.piece_to_text`: plain-text rendering of a
markup piece under a resolution context. -/
def piece_to_text : Ctx → Piece → UText
  | _, .textP s => str_codes s
  | ctx, .seqP ps => pieces_to_text ctx ps
  | ctx, .par p => piece_to_text ctx p ++ [10]
  | ctx, .refContent p _ => piece_to_text ctx p
  | ctx, .refPlain key =>
    (match resolve_reference key ctx with
     | some t => target_to_text t
     | none => [])
  | ctx, .citeQuoted q info =>
    str_codes "“" ++ collapse_ws (piece_to_text ctx q) ++ str_codes "” (" ++
      str_codes info.title ++ str_codes ")"
  | _, .citePlain info => str_codes info.title
  | _, .citationP c => str_codes c.title
  | _, .tokenP t => str_codes t.text
  | ctx, .wrapped p => piece_to_text ctx p

/-- Sequence rendering: children in order, concatenated. -/
def pieces_to_text : Ctx → PieceList → UText
  | _, .nil => []
  | ctx, .cons p ps => piece_to_text ctx p ++ pieces_to_text ctx ps

end

/-- HTML tree produced by the `dominate` calls, modelled from the
spec as elements with a tag, attributes in insertion order, and
children. -/
inductive Html where
  | htext (s : String)
  | helem (tag : String) (attrs : List (String × String)) (children : List Html)

/-- Title attribute added by `H.attr` when the registry has a title. -/
def known_title_attrs (t : Tok) : List (String × String) :=
  match t.title with
  | some ti => [("title", ti)]
  | none => []

/-- Embedding of `report.known_to_html`: a link when the token has a
citation, a span otherwise, classed by the token kind, with a title
attribute when the registry supplies one. -/
def known_to_html (t : Tok) : Html :=
  match t.url with
  | some u =>
    .helem "a" ([("class", "known known-" ++ t.kind), ("href", u),
      ("target", "_blank")] ++ known_title_attrs t) [.htext t.text]
  | none =>
    .helem "span" ([("class", "known known-" ++ t.kind)] ++ known_title_attrs t)
      [.htext t.text]

/-- Embedding of `report.reference_targets`: anchor references of
every entry of a header view, or of the object itself. -/
def reference_targets : Target → List String
  | .viewT _ anchors => anchors.map (fun a => "#" ++ toString a)
  | .entryT _ a => ["#" ++ toString a]
  | .tokT _ a => ["#" ++ toString a]

/-- HTML rendering of a bare target node (the catch-all expansion
reaches `known_to_html` through the known name or token). -/
def target_to_html : Target → List Html
  | .entryT n _ => [known_to_html n]
  | .viewT n _ => [known_to_html n]
  | .tokT t _ => [known_to_html t]

/-- Citation element: `cite` wrapping a new-tab link. -/
def citation_to_html (c : Cit) : Html :=
  .helem "cite" [] [.helem "a" [("href", c.url), ("target", "_blank")]
    [.htext c.title]]

mutual

/-- Embedding of `report.piece_to_html`: HTML rendering of a markup
piece; a call appends a list of nodes to the current element. -/
def piece_to_html : Ctx → Piece → List Html
  | _, .textP s => [.helem "span" [] [.htext s]]
  | ctx, .seqP ps => pieces_to_html ctx ps
  | ctx, .par p => [.helem "p" [("class", "notice-para")] (piece_to_html ctx p)]
  | ctx, .refContent p key =>
    [.helem "span"
      [("data-ref-to", String.intercalate ", "
        (((resolve_reference key ctx).map reference_targets).getD []))]
      (piece_to_html ctx p)]
  | ctx, .refPlain key =>
    [.helem "span"
      [("data-ref-to", String.intercalate ", "
        (((resolve_reference key ctx).map reference_targets).getD []))]
      (match resolve_reference key ctx with
       | some t => target_to_html t
       | none => [])]
  | ctx, .citeQuoted q info =>
    citation_to_html info :: .helem "span" [] [.htext ": "] ::
      [.helem "q" [("cite", info.url)] (piece_to_html ctx q)]
  | _, .citePlain info => [citation_to_html info]
  | _, .citationP c => [citation_to_html c]
  | _, .tokenP t => [known_to_html t]
  | ctx, .wrapped p => piece_to_html ctx p

/-- Sequence rendering: children in order. -/
def pieces_to_html : Ctx → PieceList → List Html
  | _, .nil => []
  | ctx, .cons p ps => piece_to_html ctx p ++ pieces_to_html ctx ps

end

/-- Concrete token, target and context for the C8 theorems. -/
def tok0 : Tok := ⟨"Method", "GET", none, none⟩

/-- Concrete resolution target for the C8 theorems. -/
def tgt0 : Target := .tokT tok0 7

/-- Concrete resolution context for the C8 theorems. -/
def ctx0 : Ctx := [("target", tgt0)]

/-! ### Report renderer dispatch (`report.Report._render_item`) -/

/-- Renderable tree item handed to `Report.render`: one of the four
node kinds, or any other object, carrying its runtime type name. -/
inductive TreeItem where
  | connectionI (data : Nat)
  | exchangeI (data : Nat)
  | requestI (data : Nat)
  | responseI (data : Nat)
  | otherI (typeName : String)
deriving DecidableEq, Repr

/-- Is the item one of the four renderable tree node kinds? -/
def is_known_kind : TreeItem → Bool
  | .otherI _ => false
  | _ => true

/-- Fatal rendering error: the `TypeError` raised by the dispatch
else-branch, carrying the offending type name. -/
inductive RenderError where
  | typeError (typeName : String)
deriving DecidableEq, Repr

/-- Virtual per-kind rendering methods of a `Report` subclass, over
its sink/output state. -/
structure Renderer (σ : Type) where
  render_connection : σ → Nat → σ
  render_exchange : σ → Nat → σ
  render_request : σ → Nat → σ
  render_response : σ → Nat → σ

/-- Embedding of `Report._render_item`: dispatch over the runtime
kind; any other kind raises `TypeError`. -/
def render_item {σ : Type} (R : Renderer σ) (s : σ) :
    TreeItem → Except RenderError σ
  | .connectionI d => .ok (R.render_connection s d)
  | .exchangeI d => .ok (R.render_exchange s d)
  | .requestI d => .ok (R.render_request s d)
  | .responseI d => .ok (R.render_response s d)
  | .otherI n => .error (.typeError n)

/-- Embedding of `Report.render`: visit the items in order; an
uncaught `TypeError` aborts the loop, rendering nothing further. -/
def report_render {σ : Type} (R : Renderer σ) (s : σ) :
    List TreeItem → Except RenderError σ
  | [] => .ok s
  | it :: rest =>
    match render_item R s it with
    | .error e => .error e
    | .ok s2 => report_render R s2 rest

/-- Concrete renderer (over a counter state) for the C9 witness. -/
def renderer_ex : Renderer Nat :=
  { render_connection := fun s _ => s + 1
    render_exchange := fun s _ => s + 1
    render_request := fun s _ => s + 1
    render_response := fun s _ => s + 1 }

/-! ## Round-trip lemmas for the chunked grammar -/

/-- Digits produced by `hex_digit_code` are hexadecimal digit bytes. -/
theorem is_hex_byte_hex_digit_code (d : Nat) (hd : d < 16) :
    is_hex_byte (hex_digit_code d) = true := by
  simp only [is_hex_byte, hex_digit_code, decide_eq_true_eq]
  split <;> omega

/-- Reading back a digit byte gives the digit value. -/
theorem hex_val_hex_digit_code (d : Nat) (hd : d < 16) :
    hex_val (hex_digit_code d) = d := by
  unfold hex_val hex_digit_code
  split_ifs <;> omega

/-- Every byte of a hexadecimal spelling is a hexadecimal digit. -/
theorem nat_to_hex_all_hex (n : Nat) : ∀ b ∈ nat_to_hex n, is_hex_byte b = true := by
  induction n using Nat.strong_induction_on with
  | _ n ih =>
    rw [nat_to_hex]
    split
    · next hlt =>
      intro b hb
      simp only [List.mem_singleton] at hb
      subst hb
      exact is_hex_byte_hex_digit_code n hlt
    · next hge =>
      intro b hb
      rw [List.mem_append] at hb
      rcases hb with hb | hb
      · exact ih (n / 16) (Nat.div_lt_self (by omega) (by omega)) b hb
      · simp only [List.mem_singleton] at hb
        subst hb
        exact is_hex_byte_hex_digit_code (n % 16) (Nat.mod_lt _ (by omega))

/-- Hexadecimal spellings are non-empty. -/
theorem nat_to_hex_ne_nil (n : Nat) : nat_to_hex n ≠ [] := by
  rw [nat_to_hex]
  split <;> simp

/-- Folding the digit-accumulation step over a hexadecimal spelling
recovers the spelled number. -/
theorem nat_to_hex_foldl (n : Nat) : ∀ a : Nat,
    (nat_to_hex n).foldl (fun acc b => 16 * acc + hex_val b) a
      = a * 16 ^ (nat_to_hex n).length + n := by
  induction n using Nat.strong_induction_on with
  | _ n ih =>
    intro a
    rw [nat_to_hex]
    split
    · next hlt =>
      simp only [List.foldl_cons, List.foldl_nil, List.length_singleton,
        hex_val_hex_digit_code n hlt, pow_one]
      omega
    · next hge =>
      rw [List.foldl_append]
      simp only [List.foldl_cons, List.foldl_nil, List.length_append,
        List.length_singleton]
      rw [ih (n / 16) (Nat.div_lt_self (by omega) (by omega)) a,
        hex_val_hex_digit_code (n % 16) (Nat.mod_lt _ (by omega))]
      calc 16 * (a * 16 ^ (nat_to_hex (n / 16)).length + n / 16) + n % 16
          = a * 16 ^ (nat_to_hex (n / 16)).length * 16
              + (16 * (n / 16) + n % 16) := by ring
        _ = a * 16 ^ (nat_to_hex (n / 16)).length * 16 + n := by
              rw [Nat.div_add_mod]
        _ = a * 16 ^ ((nat_to_hex (n / 16)).length + 1) + n := by
              rw [pow_succ]; ring

/-- Splitting `takeWhile`/`dropWhile` at the boundary of a block that
wholly satisfies the predicate, when the continuation starts with a
byte that does not. -/
theorem takeWhile_append_all (p : Nat → Bool) (l r : List Nat)
    (hl : ∀ x ∈ l, p x = true) (hr : ∀ b t, r = b :: t → p b = false) :
    (l ++ r).takeWhile p = l ∧ (l ++ r).dropWhile p = r := by
  induction l with
  | nil =>
    simp only [List.nil_append]
    cases r with
    | nil => simp
    | cons b t =>
      have hb := hr b t rfl
      simp [List.takeWhile_cons, List.dropWhile_cons, hb]
  | cons x xs ih =>
    have hx : p x = true := hl x (by simp)
    have ih2 := ih (fun y hy => hl y (by simp [hy]))
    simp [List.takeWhile_cons, List.dropWhile_cons, hx, ih2.1, ih2.2]

/-- Parsing the hexadecimal spelling of `n` followed by a non-digit
byte yields `n` and the continuation. -/
theorem parse_hex_digits_encode (n : Nat) (r : Bytes)
    (hr : ∀ b t, r = b :: t → is_hex_byte b = false) :
    parse_hex_digits (nat_to_hex n ++ r) = some (n, r) := by
  have h := takeWhile_append_all is_hex_byte (nat_to_hex n) r (nat_to_hex_all_hex n) hr
  unfold parse_hex_digits
  rw [h.1, h.2, if_neg (nat_to_hex_ne_nil n), nat_to_hex_foldl n 0]
  simp

/-- A cons cell starting with CR does not start with a hexadecimal
digit. -/
theorem cr_head_not_hex (x : Bytes) : ∀ b t, (13 :: x) = b :: t → is_hex_byte b = false := by
  intro b t h
  injection h with h1 _
  subst h1
  decide

/-- Reading one encoded non-empty chunk gives back its data. -/
theorem parse_chunk_encode (c : Bytes) (r : Bytes) (hc : c ≠ []) :
    parse_chunk (encode_chunk c ++ r) = .ok (c, r) := by
  have hassoc : encode_chunk c ++ r
      = nat_to_hex c.length ++ (13 :: 10 :: (c ++ 13 :: 10 :: r)) := by
    simp [encode_chunk]
  rw [hassoc]
  unfold parse_chunk
  rw [parse_hex_digits_encode c.length _ (cr_head_not_hex _)]
  have hlen : c.length ≠ 0 := by
    simpa [List.length_eq_zero] using hc
  have htake : take_n c.length (c ++ 13 :: 10 :: r) = some (c, 13 :: 10 :: r) := by
    unfold take_n
    rw [if_pos (by simp), List.take_left c, List.drop_left c]
  simp [expect_crlf, hlen, htake]

/-- Reading the encoded zero-size chunk gives empty data. -/
theorem parse_chunk_zero (r : Bytes) :
    parse_chunk (48 :: 13 :: 10 :: r) = .ok ([], r) := by
  have h0 : parse_hex_digits (48 :: 13 :: 10 :: r) = some (0, 13 :: 10 :: r) := by
    unfold parse_hex_digits
    simp [List.takeWhile_cons, List.dropWhile_cons, is_hex_byte, hex_val]
  simp [parse_chunk, h0, expect_crlf]

/-- Looping over an encoded chunk sequence yields exactly the encoded
payloads, for any sufficient fuel. -/
theorem parse_chunks_aux_encode (chunks : List Bytes) :
    ∀ (fuel : Nat) (t : Bytes), chunks.length < fuel → (∀ c ∈ chunks, c ≠ []) →
      parse_chunks_aux fuel (encode_chunks chunks ++ t) = .ok (chunks, t) := by
  induction chunks with
  | nil =>
    intro fuel t hf _
    cases fuel with
    | zero => omega
    | succ f =>
      have h : encode_chunks [] ++ t = 48 :: 13 :: 10 :: t := by
        simp [encode_chunks]
      rw [h]
      simp [parse_chunks_aux, parse_chunk_zero]
  | cons c cs ih =>
    intro fuel t hf hne
    cases fuel with
    | zero => omega
    | succ f =>
      have hassoc : encode_chunks (c :: cs) ++ t
          = encode_chunk c ++ (encode_chunks cs ++ t) := by
        simp [encode_chunks]
      rw [hassoc]
      have hcne : c ≠ [] := hne c (by simp)
      have hrec := ih f (t := t) (by simpa using hf) (fun x hx => hne x (by simp [hx]))
      simp [parse_chunks_aux, parse_chunk_encode c _ hcne, hcne, hrec]

/-- A cons cell starting with CR does not start with a token
character. -/
theorem cr_head_not_tchar (x : Bytes) : ∀ b t, (13 :: x) = b :: t → is_tchar b = false := by
  intro b t h
  injection h with h1 _
  subst h1
  decide

/-- Reading one encoded trailer line gives back the entry. -/
theorem parse_trailer_line_encode (e : HeaderEntry) (r : Bytes)
    (hv : valid_entry e = true) :
    parse_trailer_line (encode_trailer e ++ r) = some (e, r) := by
  simp only [valid_entry, Bool.and_eq_true, Bool.not_eq_true',
    List.isEmpty_eq_false, List.all_eq_true] at hv
  obtain ⟨⟨hne, hname⟩, hval⟩ := hv
  have hassoc : encode_trailer e ++ r
      = e.name ++ (58 :: (e.value ++ 13 :: 10 :: r)) := by
    simp [encode_trailer]
  have hn := takeWhile_append_all is_tchar e.name (58 :: (e.value ++ 13 :: 10 :: r))
    hname (by intro b t h; injection h with h1 _; subst h1; decide)
  have hvl := takeWhile_append_all is_value_byte e.value (13 :: 10 :: r)
    hval (by intro b t h; injection h with h1 _; subst h1; decide)
  rw [hassoc]
  unfold parse_trailer_line
  rw [hn.1, hn.2, if_neg hne]
  have hv1 : (e.value ++ 13 :: 10 :: r).takeWhile is_value_byte = e.value := hvl.1
  have hv2 : (e.value ++ 13 :: 10 :: r).dropWhile is_value_byte = 13 :: 10 :: r := hvl.2
  simp [hv1, hv2, expect_crlf]

/-- Trailer lines stop at the final CRLF. -/
theorem parse_trailer_line_cr (r : Bytes) : parse_trailer_line (13 :: r) = none := by
  unfold parse_trailer_line
  simp [List.takeWhile_cons, is_tchar]

/-- Reading an encoded trailer section yields exactly the encoded
entries and leaves the final CRLF, for any sufficient fuel. -/
theorem parse_trailers_aux_encode (ts : List HeaderEntry) :
    ∀ (fuel : Nat) (r : Bytes), ts.length < fuel →
      (∀ e ∈ ts, valid_entry e = true) →
      parse_trailers_aux fuel ((ts.map encode_trailer).flatten ++ (13 :: r))
        = (ts, 13 :: r) := by
  induction ts with
  | nil =>
    intro fuel r hf _
    cases fuel with
    | zero => omega
    | succ f => simp [parse_trailers_aux, parse_trailer_line_cr]
  | cons e es ih =>
    intro fuel r hf hv
    cases fuel with
    | zero => omega
    | succ f =>
      have hassoc : ((e :: es).map encode_trailer).flatten ++ (13 :: r)
          = encode_trailer e ++ ((es.map encode_trailer).flatten ++ (13 :: r)) := by
        simp
      rw [hassoc]
      have hrec := ih f (r := r) (by simpa using hf) (fun x hx => hv x (by simp [hx]))
      simp [parse_trailers_aux, parse_trailer_line_encode e _ (hv e (by simp)), hrec]

/-- Lower bound used for fuel sufficiency: a flattened map is at least
as long as its index list when every block is non-empty. -/
theorem length_le_flatten_map {α : Type} (f : α → Bytes) (l : List α)
    (hf : ∀ x ∈ l, 1 ≤ (f x).length) :
    l.length ≤ ((l.map f).flatten).length := by
  induction l with
  | nil => simp
  | cons x xs ih =>
    have h1 := hf x (by simp)
    have h2 := ih (fun y hy => hf y (by simp [hy]))
    simp only [List.map_cons, List.flatten_cons, List.length_append, List.length_cons]
    omega

/-- Encoded chunks occupy at least one byte. -/
theorem encode_chunk_length (c : Bytes) : 1 ≤ (encode_chunk c).length := by
  have := List.length_pos.mpr (nat_to_hex_ne_nil c.length)
  simp only [encode_chunk, List.length_append]
  omega

/-- Encoded trailer lines occupy at least one byte. -/
theorem encode_trailer_length (e : HeaderEntry) : 1 ≤ (encode_trailer e).length := by
  simp only [encode_trailer, List.length_append, List.length_cons, List.length_nil]
  omega

/-- Parsing a whole well-formed encoded stream succeeds with the
encoded payloads and trailers and consumes every byte. -/
theorem parse_chunked_data_encode (chunks : List Bytes) (trailers : List HeaderEntry)
    (hc : ∀ c ∈ chunks, c ≠ []) (ht : ∀ e ∈ trailers, valid_entry e = true) :
    parse_chunked_data (encode_chunked chunks trailers) = .ok (chunks, trailers, []) := by
  have hsplit : encode_chunked chunks trailers
      = encode_chunks chunks ++ ((trailers.map encode_trailer).flatten ++ (13 :: [10])) := by
    simp [encode_chunked]
  have hfuel : chunks.length < (encode_chunked chunks trailers).length + 1 := by
    have h1 := length_le_flatten_map encode_chunk chunks
      (fun c _ => encode_chunk_length c)
    rw [hsplit]
    simp only [List.length_append, encode_chunks]
    omega
  have hchunks : parse_chunks (encode_chunked chunks trailers)
      = .ok (chunks, (trailers.map encode_trailer).flatten ++ (13 :: [10])) := by
    unfold parse_chunks
    conv_lhs => rw [hsplit]
    exact parse_chunks_aux_encode chunks _ _ (by rw [← hsplit]; exact hfuel) hc
  have htfuel : trailers.length
      < ((trailers.map encode_trailer).flatten ++ (13 :: [10])).length + 1 := by
    have h2 := length_le_flatten_map encode_trailer trailers
      (fun e _ => encode_trailer_length e)
    simp only [List.length_append]
    omega
  have htrail : parse_trailer_part ((trailers.map encode_trailer).flatten ++ (13 :: [10]))
      = (trailers, 13 :: [10]) := by
    unfold parse_trailer_part
    exact parse_trailers_aux_encode trailers _ _ htfuel ht
  unfold parse_chunked_data
  rw [hchunks]
  simp [htrail, expect_crlf]

/-! ## Claim C1 -/

/-- C1: for every byte cursor containing well-formed chunked data (any
payload sequence terminated by a zero-size chunk, zero or more valid
trailer lines, final CRLF), `parse_chunked` returns `True`, sets the
body to the concatenation of the payloads in order, sets
`trailer_entries` to exactly the trailer lines (the empty list when
there are none), and — the record update touching no other field —
records no finding on the message. -/
theorem parse_chunked_wellformed (msg : Message) (chunks : List Bytes)
    (trailers : List HeaderEntry) (hc : ∀ c ∈ chunks, c ≠ [])
    (ht : ∀ e ∈ trailers, valid_entry e = true) :
    parse_chunked msg (encode_chunked chunks trailers) =
      (true, { msg with body := .bytes chunks.flatten,
                        trailer_entries := some trailers }) := by
  simp [parse_chunked, parse_chunked_data_encode chunks trailers hc ht]

/-- Witness for C1: the spec scenario, chunked body
`4 CRLF Wiki CRLF 5 CRLF pedia CRLF 0 CRLF CRLF` decodes to
`Wikipedia` with an empty trailer list and no findings. -/
theorem parse_chunked_wellformed_witness :
    (∀ c ∈ [str_codes "Wiki", str_codes "pedia"], c ≠ []) ∧
    (∀ e ∈ ([] : List HeaderEntry), valid_entry e = true) ∧
    parse_chunked msg_ex (encode_chunked [str_codes "Wiki", str_codes "pedia"] []) =
      (true, { msg_ex with body := .bytes (str_codes "Wikipedia"),
                           trailer_entries := some [] }) :=
  ⟨by decide, by decide,
   (parse_chunked_wellformed msg_ex [str_codes "Wiki", str_codes "pedia"] []
     (by decide) (by decide)).trans (by rfl)⟩

/-! ## Claim C2 -/

/-- C2: for every byte cursor on which the chunked grammar fails,
`parse_chunked` returns `False`, discards all partially accumulated
chunk data by setting the body to `Unparseable`, records exactly one
decode-failure finding (notice 1005), and leaves the message with no
trailer entries (it starts with none and the failure path does not
touch them). -/
theorem parse_chunked_malformed (msg : Message) (s : Bytes) (e : ParseError)
    (hm : parse_chunked_data s = .error e) (h0 : msg.trailer_entries = none) :
    parse_chunked msg s =
      (false, { msg with complaints := msg.complaints ++ [⟨1005, some e.msg⟩],
                         body := .unparseable }) ∧
    (parse_chunked msg s).2.trailer_entries = none ∧
    (parse_chunked msg s).2.complaints.length = msg.complaints.length + 1 := by
  refine ⟨?_, ?_, ?_⟩ <;> simp [parse_chunked, hm, h0]

/-- Witness for C2 at the malformed stream `X` (not a chunk-size
digit). -/
theorem parse_chunked_malformed_witness :
    parse_chunked_data [88] = .error ⟨"chunk-size expected"⟩ ∧
    msg_ex.trailer_entries = none ∧
    (parse_chunked msg_ex [88] =
      (false, { msg_ex with
                  complaints := msg_ex.complaints ++ [⟨1005, some "chunk-size expected"⟩],
                  body := .unparseable }) ∧
     (parse_chunked msg_ex [88]).2.trailer_entries = none ∧
     (parse_chunked msg_ex [88]).2.complaints.length = msg_ex.complaints.length + 1) :=
  ⟨rfl, rfl, parse_chunked_malformed msg_ex [88] ⟨"chunk-size expected"⟩ rfl rfl⟩

/-! ## Claim C3 -/

/-- C3: for every residual transfer-coding after the outermost chunked
coding was peeled off: `chunked` again records the distinct
chunked-not-outermost finding (notice 1002) and marks the body
`Unparseable`; any other coding that is not the identity coding
records the distinct unsupported-transfer-coding finding (notice 1003)
naming that coding and marks the body `Unparseable`. -/
theorem decode_transfer_coding_residual (msg : Message) (coding : String) :
    (coding = "chunked" →
      decode_transfer_coding msg coding =
        { msg with complaints := msg.complaints ++ [⟨1002, none⟩],
                   body := .unparseable }) ∧
    (coding ≠ "chunked" → coding ≠ "identity" →
      decode_transfer_coding msg coding =
        { msg with complaints := msg.complaints ++ [⟨1003, some coding⟩],
                   body := .unparseable }) := by
  constructor
  · intro h
    simp [decode_transfer_coding, h]
  · intro h _
    simp [decode_transfer_coding, h]

/-- Witness for C3 at the codings `chunked` and `gzip`. -/
theorem decode_transfer_coding_residual_witness :
    decode_transfer_coding msg_ex "chunked" =
      { msg_ex with complaints := [⟨1002, none⟩], body := .unparseable } ∧
    (("gzip" : String) ≠ "chunked" ∧ ("gzip" : String) ≠ "identity") ∧
    decode_transfer_coding msg_ex "gzip" =
      { msg_ex with complaints := [⟨1003, some "gzip"⟩], body := .unparseable } :=
  ⟨((decode_transfer_coding_residual msg_ex "chunked").1 rfl).trans (by rfl),
   ⟨by decide, by decide⟩,
   ((decode_transfer_coding_residual msg_ex "gzip").2 (by decide) (by decide)).trans
     (by rfl)⟩

/-! ## Claim C10 -/

/-- C10: `parse_chunked` modifies at most `body` and `trailer_entries`
and appends at most one finding; `version`, `header_entries`, `raw`,
and every component of the header view (the modelled `headers` field)
as well as the upstream fields are unchanged on both paths. -/
theorem parse_chunked_frame (msg : Message) (s : Bytes) :
    (parse_chunked msg s).2.version = msg.version ∧
    (parse_chunked msg s).2.header_entries = msg.header_entries ∧
    (parse_chunked msg s).2.raw = msg.raw ∧
    (parse_chunked msg s).2.transfer_encoding = msg.transfer_encoding ∧
    (parse_chunked msg s).2.content_encoding = msg.content_encoding ∧
    (parse_chunked msg s).2.decoded_body = msg.decoded_body ∧
    (parse_chunked msg s).2.json_data = msg.json_data ∧
    (parse_chunked msg s).2.body_charset = msg.body_charset ∧
    ∃ l, (parse_chunked msg s).2.complaints = msg.complaints ++ l ∧ l.length ≤ 1 := by
  cases h : parse_chunked_data s with
  | error e =>
    refine ⟨?_, ?_, ?_, ?_, ?_, ?_, ?_, ?_, ⟨[⟨1005, some e.msg⟩], ?_, ?_⟩⟩ <;>
      simp [parse_chunked, h]
  | ok v =>
    obtain ⟨chunks, trailers, r⟩ := v
    refine ⟨?_, ?_, ?_, ?_, ?_, ?_, ?_, ?_, ⟨[], ?_, ?_⟩⟩ <;>
      simp [parse_chunked, h]

/-! ## Display pipeline lemmas -/

/-- Decoding all-ASCII bytes is the identity, for sufficient fuel. -/
theorem decode_utf8_aux_ascii (bs : Bytes) :
    ∀ fuel : Nat, bs.length < fuel → (∀ b ∈ bs, b < 128) →
      decode_utf8_aux fuel bs = bs := by
  induction bs with
  | nil =>
    intro fuel hf _
    cases fuel with
    | zero => omega
    | succ f => rfl
  | cons b r ih =>
    intro fuel hf hb
    cases fuel with
    | zero => omega
    | succ f =>
      have hb1 : b < 128 := hb b (by simp)
      have ih2 := ih f (by simpa using hf) (fun x hx => hb x (by simp [hx]))
      simp [decode_utf8_aux, hb1, ih2]

/-- Decoding all-ASCII bytes is the identity. -/
theorem decode_utf8_replace_ascii (bs : Bytes) (h : ∀ b ∈ bs, b < 128) :
    decode_utf8_replace bs = bs :=
  decode_utf8_aux_ascii bs (bs.length + 1) (by omega) h

/-- Sanitized text never holds a non-printable character. -/
theorem printable_no_nonprintable (t : UText) :
    has_nonprintable (printable t) = false := by
  induction t with
  | nil => rfl
  | cons c r ih =>
    simp only [has_nonprintable, printable, List.map_cons, List.any_cons] at *
    rw [Bool.or_eq_false_iff]
    refine ⟨?_, ih⟩
    by_cases hc : is_printable_code c = true
    · rw [if_pos hc, hc]
      rfl
    · rw [if_neg hc]
      decide

/-- Sanitization is the identity on text with no non-printable
character. -/
theorem printable_of_no_nonprintable (t : UText)
    (h : has_nonprintable t = false) : printable t = t := by
  induction t with
  | nil => rfl
  | cons c r ih =>
    simp only [has_nonprintable, List.any_cons, Bool.or_eq_false_iff] at h
    obtain ⟨h1, h2⟩ := h
    have hc : is_printable_code c = true := by simpa using h1
    have hr : printable r = r := ih (by simpa [has_nonprintable] using h2)
    simp [printable, hc]
    simpa [printable] using hr

/-- Possible members of the pre-truncation transform list. -/
theorem mem_pipeline_transforms (msg : Message) (tr : Transform)
    (h : tr ∈ pipeline_transforms msg) :
    tr = .removing_te ∨ tr = .removing_ce ∨ tr = .pretty_printing ∨
      tr = .decoding_from (charset_of msg) := by
  simp only [pipeline_transforms, List.mem_append] at h
  rcases h with (h | h) | h
  · split at h
    · simp at h
      exact Or.inl h
    · simp at h
  · split at h
    · simp at h
      exact Or.inr (Or.inl h)
    · simp at h
  · split at h
    · simp at h
      exact Or.inr (Or.inr (Or.inl h))
    · split at h
      · split at h
        · simp at h
        · simp at h
          exact Or.inr (Or.inr (Or.inr h))
      · simp at h

/-- The truncation note never comes from an earlier stage. -/
theorem taking_first_not_pipeline (msg : Message) (n : Nat) :
    Transform.taking_first n ∉ pipeline_transforms msg := by
  intro h
  rcases mem_pipeline_transforms msg _ h with h | h | h | h <;> simp at h

/-- The Content-Encoding note is in the transform list exactly when a
content-decoded body is available and the header is present. -/
theorem removing_ce_mem_pipeline (msg : Message) :
    Transform.removing_ce ∈ pipeline_transforms msg ↔
      (okay msg.decoded_body && msg.content_encoding) = true := by
  constructor
  · intro h
    simp only [pipeline_transforms, List.mem_append] at h
    rcases h with (h | h) | h
    · split at h <;> simp at h
    · split at h
      · next hcond => exact hcond
      · simp at h
    · split at h
      · simp at h
      · split at h
        · split at h <;> simp at h
        · simp at h
  · intro h
    simp [pipeline_transforms, h]

/-- Transform list of a message whose pipeline runs, as one append. -/
theorem displayable_body_transforms (msg : Message) (hb : okay msg.body = true) :
    (displayable_body msg).2 = pipeline_transforms msg ++
      (if (working_text msg).length > 5000 then [Transform.taking_first 5000]
       else []) ++
      (if has_nonprintable (pre_sanitize_text msg) then
        [Transform.replacing_nonprintable] else []) := by
  by_cases hnp : has_nonprintable (pre_sanitize_text msg) = true <;>
    simp [displayable_body, hb, hnp]

/-! ## Claim C4 -/

/-- C4: for every message whose body is absent, empty, or the
`Unparseable` marker, `displayable_body` returns immediately with that
body value unchanged and an empty transform list, whatever the
headers, decoded body, or structured data hold. -/
theorem displayable_body_early_return (msg : Message)
    (h : msg.body = .absent ∨ msg.body = .bytes [] ∨ msg.body = .unparseable) :
    displayable_body msg = (.bodyOut msg.body, []) := by
  have hok : okay msg.body = false := by
    rcases h with h | h | h <;> rw [h] <;> rfl
  simp [displayable_body, hok]

/-- Witness for C4 at a message with an unparseable body. -/
theorem displayable_body_early_return_witness :
    (msg_c4.body = .absent ∨ msg_c4.body = .bytes [] ∨
      msg_c4.body = .unparseable) ∧
    displayable_body msg_c4 = (.bodyOut msg_c4.body, []) :=
  ⟨Or.inr (Or.inr rfl),
   displayable_body_early_return msg_c4 (Or.inr (Or.inr rfl))⟩

/-! ## Claim C5 -/

/-- C5 as stated is false: this message has an available (okay)
content-decoded body, yet no removing-Content-Encoding note is
appended, because the source appends it only when the message also has
a Content-Encoding header. -/
theorem displayable_body_ce_counterexample :
    okay msg_c5.decoded_body = true ∧
    Transform.removing_ce ∉ (displayable_body msg_c5).2 :=
  ⟨rfl, by decide⟩

/-- C5 (amended): with an okay content-decoded body the working text
after the content-decoding stage is the UTF-8-with-replacement
decoding of that body, and — the pipeline running at all — the
removing-Content-Encoding note is appended exactly when the message
has a Content-Encoding header. -/
theorem displayable_body_content_decoding (msg : Message)
    (hb : okay msg.body = true) (hd : okay msg.decoded_body = true) :
    text_after_decoded msg = decode_utf8_replace (bytes_of msg.decoded_body) ∧
    (Transform.removing_ce ∈ (displayable_body msg).2 ↔
      msg.content_encoding = true) := by
  refine ⟨by simp [text_after_decoded, hd], ?_⟩
  rw [displayable_body_transforms msg hb]
  simp only [List.mem_append, removing_ce_mem_pipeline, hd, Bool.true_and]
  constructor
  · rintro ((h | h) | h)
    · exact h
    · split at h <;> simp at h
    · split at h <;> simp at h
  · intro h
    exact Or.inl (Or.inl h)

/-- Witness for the amended C5 at a message with a content-decoded
body and a Content-Encoding header. -/
theorem displayable_body_content_decoding_witness :
    (okay msg_c5b.body = true ∧ okay msg_c5b.decoded_body = true) ∧
    (text_after_decoded msg_c5b =
      decode_utf8_replace (bytes_of msg_c5b.decoded_body) ∧
     (Transform.removing_ce ∈ (displayable_body msg_c5b).2 ↔
       msg_c5b.content_encoding = true)) :=
  ⟨⟨rfl, rfl⟩, displayable_body_content_decoding msg_c5b rfl rfl⟩

/-! ## Claim C6 -/

/-- C6 as stated is false: the working text of this message is 5001
characters long and starts with a non-printable character, so the
returned text is the sanitization of the first 5000 characters, not
the first 5000 characters themselves. -/
theorem displayable_body_truncation_counterexample :
    5000 < (working_text msg_c6).length ∧
    (displayable_body msg_c6).1 ≠
      .textOut ((working_text msg_c6).take 5000) := by
  have hlow : ∀ b ∈ (1 :: List.replicate 5000 97 : Bytes), b < 128 := by
    intro b hb
    rcases List.mem_cons.mp hb with h | h
    · omega
    · have := List.eq_of_mem_replicate h
      omega
  have hj : msg_c6.json_data.isSome = false := rfl
  have hd : okay msg_c6.decoded_body = false := rfl
  have hby : bytes_of msg_c6.body = 1 :: List.replicate 5000 97 := rfl
  have hok6 : okay msg_c6.body = true := rfl
  have hwt : working_text msg_c6 = 1 :: List.replicate 5000 97 := by
    rw [working_text, hj, if_neg (by decide), hd, if_neg (by decide),
      text_after_decoded, hd, if_neg (by decide), hby]
    exact decode_utf8_replace_ascii _ hlow
  have hlen : (working_text msg_c6).length = 5001 := by
    rw [hwt, List.length_cons, List.length_replicate]
  have htake : (working_text msg_c6).take 5000 = 1 :: List.replicate 4999 97 := by
    rw [hwt]
    show List.take (4999 + 1) (1 :: List.replicate 5000 97) = _
    rw [List.take_succ_cons, List.take_replicate]
    norm_num
  have hpre : pre_sanitize_text msg_c6 = 1 :: List.replicate 4999 97 := by
    rw [pre_sanitize_text, hlen, if_pos (by norm_num)]
    exact htake
  have hnp : has_nonprintable (pre_sanitize_text msg_c6) = true := by
    rw [hpre]
    decide
  have hfst : (displayable_body msg_c6).1 =
      .textOut (printable (pre_sanitize_text msg_c6)) := by
    rw [displayable_body, hok6, if_pos rfl, hnp, if_pos rfl]
  have hprint : printable (1 :: List.replicate 4999 97) =
      65533 :: List.replicate 4999 97 := by
    rw [printable, List.map_cons, List.map_replicate,
      if_neg (by decide), if_pos (by decide)]
  refine ⟨by omega, ?_⟩
  rw [hfst, hpre, hprint, htake]
  intro h
  injection h with h1
  injection h1 with h2 _
  omega

/-- C6 (amended): when the pipeline runs, a working text longer than
5000 characters yields output text of exactly 5000 characters — the
first 5000 of the working text with each non-printable character
replaced — and the truncation note appears; a working text of at most
5000 characters yields no truncation note. -/
theorem displayable_body_truncation (msg : Message) (hb : okay msg.body = true) :
    (5000 < (working_text msg).length →
      (displayable_body msg).1 =
        .textOut (printable ((working_text msg).take 5000)) ∧
      (printable ((working_text msg).take 5000)).length = 5000 ∧
      Transform.taking_first 5000 ∈ (displayable_body msg).2) ∧
    ((working_text msg).length ≤ 5000 →
      Transform.taking_first 5000 ∉ (displayable_body msg).2) := by
  constructor
  · intro hlong
    have hpre : pre_sanitize_text msg = (working_text msg).take 5000 := by
      simp [pre_sanitize_text, hlong]
    refine ⟨?_, ?_, ?_⟩
    · by_cases hnp : has_nonprintable (pre_sanitize_text msg) = true
      · have h1 : (displayable_body msg).1 =
            .textOut (printable (pre_sanitize_text msg)) := by
          simp [displayable_body, hb, hnp]
        rw [h1, hpre]
      · have hnp' : has_nonprintable (pre_sanitize_text msg) = false := by
          simpa using hnp
        have h1 : (displayable_body msg).1 = .textOut (pre_sanitize_text msg) := by
          simp [displayable_body, hb, hnp']
        have h2 : printable (pre_sanitize_text msg) = pre_sanitize_text msg :=
          printable_of_no_nonprintable _ hnp'
        rw [h1, ← hpre, h2]
    · rw [printable, List.length_map, List.length_take]
      omega
    · by_cases hnp : has_nonprintable (pre_sanitize_text msg) = true <;>
        simp [displayable_body, hb, hlong, hnp]
  · intro hshort hmem
    have hlong' : ¬ ((working_text msg).length > 5000) := by omega
    rw [displayable_body_transforms msg hb] at hmem
    simp only [hlong', if_false, List.append_nil, List.mem_append] at hmem
    rcases hmem with hmem | hmem
    · exact taking_first_not_pipeline msg 5000 hmem
    · split at hmem <;> simp at hmem

/-- Witness for the amended C6 at the 5001-character message. -/
theorem displayable_body_truncation_witness :
    okay msg_c6.body = true ∧
    ((5000 < (working_text msg_c6).length →
      (displayable_body msg_c6).1 =
        .textOut (printable ((working_text msg_c6).take 5000)) ∧
      (printable ((working_text msg_c6).take 5000)).length = 5000 ∧
      Transform.taking_first 5000 ∈ (displayable_body msg_c6).2) ∧
    ((working_text msg_c6).length ≤ 5000 →
      Transform.taking_first 5000 ∉ (displayable_body msg_c6).2)) :=
  ⟨rfl, displayable_body_truncation msg_c6 rfl⟩

/-! ## Claim C7 -/

/-- C7: every text the pipeline returns is free of non-printable
characters, and whenever the pre-sanitization working text of a
running pipeline holds one, the sanitization note is recorded. -/
theorem displayable_body_sanitized (msg : Message) :
    (∀ t, (displayable_body msg).1 = .textOut t → has_nonprintable t = false) ∧
    (okay msg.body = true → has_nonprintable (pre_sanitize_text msg) = true →
      Transform.replacing_nonprintable ∈ (displayable_body msg).2) := by
  constructor
  · intro t ht
    by_cases hb : okay msg.body = true
    · by_cases hnp : has_nonprintable (pre_sanitize_text msg) = true
      · simp [displayable_body, hb, hnp] at ht
        rw [← ht]
        exact printable_no_nonprintable _
      · have hnp' : has_nonprintable (pre_sanitize_text msg) = false := by
          simpa using hnp
        simp [displayable_body, hb, hnp'] at ht
        rw [← ht]
        exact hnp'
    · have hb' : okay msg.body = false := by simpa using hb
      simp [displayable_body, hb'] at ht
  · intro hb hnp
    simp [displayable_body, hb, hnp]

/-- Witness for C7 at a short body holding the BEL control byte. -/
theorem displayable_body_sanitized_witness :
    (okay msg_c7.body = true ∧
      has_nonprintable (pre_sanitize_text msg_c7) = true) ∧
    Transform.replacing_nonprintable ∈ (displayable_body msg_c7).2 ∧
    has_nonprintable [65533, 104, 105] = false :=
  ⟨⟨rfl, by decide⟩,
   (displayable_body_sanitized msg_c7).2 rfl (by decide),
   (displayable_body_sanitized msg_c7).1 [65533, 104, 105] rfl⟩

/-! ## Claim C8 -/

/-- C8 as stated is false for the HTML format: a `Reference` with no
inline content resolving to a single target renders as the target
rendering wrapped in a span carrying the `data-ref-to` attribute, not
as the target rendering alone (the text format is identical, as the
first conjunct shows). -/
theorem reference_html_counterexample :
    piece_to_text ctx0 (.refPlain "target") = target_to_text tgt0 ∧
    piece_to_html ctx0 (.refPlain "target") ≠ target_to_html tgt0 := by
  refine ⟨rfl, ?_⟩
  intro h
  have h2 := congrArg (fun l =>
    match l with
    | [Html.helem _ attrs _] => attrs
    | _ => []) h
  exact absurd h2 (by decide)

/-- C8 (amended): a `Reference` with no inline content whose key
resolves to a single target renders in the plain-text format exactly
as the target renders directly; in the HTML format it renders as the
direct rendering of the target wrapped in one span whose
`data-ref-to` attribute lists the anchors of the resolved target. -/
theorem reference_renders_target (ctx : Ctx) (key : String) (t : Target)
    (h : resolve_reference key ctx = some t) :
    piece_to_text ctx (.refPlain key) = target_to_text t ∧
    piece_to_html ctx (.refPlain key) =
      [.helem "span"
        [("data-ref-to", String.intercalate ", " (reference_targets t))]
        (target_to_html t)] := by
  constructor
  · simp [piece_to_text, h]
  · simp [piece_to_html, h]

/-- Witness for the amended C8 at a context resolving the key to a
known-token target. -/
theorem reference_renders_target_witness :
    resolve_reference "target" ctx0 = some tgt0 ∧
    (piece_to_text ctx0 (.refPlain "target") = target_to_text tgt0 ∧
     piece_to_html ctx0 (.refPlain "target") =
       [.helem "span"
         [("data-ref-to", String.intercalate ", " (reference_targets tgt0))]
         (target_to_html tgt0)]) :=
  ⟨rfl, reference_renders_target ctx0 "target" tgt0 rfl⟩

/-! ## Claim C9 -/

/-- C9: dispatching an item that is none of the four tree node kinds
raises the fatal `TypeError`, and a whole render whose earlier items
are all of known kinds halts at that item with the same error — no
fallback rendering of the unknown item or of the remaining items is
attempted. -/
theorem render_unknown_item_fatal {σ : Type} (R : Renderer σ) (n : String)
    (post : List TreeItem) :
    (∀ s : σ, render_item R s (.otherI n) = .error (.typeError n)) ∧
    (∀ pre : List TreeItem, (∀ it ∈ pre, is_known_kind it = true) → ∀ s : σ,
      report_render R s (pre ++ .otherI n :: post) = .error (.typeError n)) := by
  refine ⟨fun s => rfl, ?_⟩
  intro pre
  induction pre with
  | nil =>
    intro _ s
    rfl
  | cons it rest ih =>
    intro hpre s
    have hit := hpre it (by simp)
    have hrest : ∀ x ∈ rest, is_known_kind x = true :=
      fun x hx => hpre x (by simp [hx])
    cases it with
    | otherI m => simp [is_known_kind] at hit
    | connectionI d =>
      simp only [List.cons_append, report_render, render_item]
      exact ih hrest _
    | exchangeI d =>
      simp only [List.cons_append, report_render, render_item]
      exact ih hrest _
    | requestI d =>
      simp only [List.cons_append, report_render, render_item]
      exact ih hrest _
    | responseI d =>
      simp only [List.cons_append, report_render, render_item]
      exact ih hrest _

/-- Witness for C9: a render over two known items, an unknown one and
a trailing known item halts with the `TypeError` of the unknown
item. -/
theorem render_unknown_item_fatal_witness :
    render_item renderer_ex 0 (.otherI "Headers") = .error (.typeError "Headers") ∧
    (∀ it ∈ [TreeItem.connectionI 0, TreeItem.requestI 1],
      is_known_kind it = true) ∧
    report_render renderer_ex 0
      ([TreeItem.connectionI 0, TreeItem.requestI 1] ++
        TreeItem.otherI "Headers" :: [TreeItem.responseI 2]) =
      .error (.typeError "Headers") :=
  ⟨(render_unknown_item_fatal renderer_ex "Headers" [TreeItem.responseI 2]).1 0,
   by decide,
   (render_unknown_item_fatal renderer_ex "Headers" [TreeItem.responseI 2]).2
     [TreeItem.connectionI 0, TreeItem.requestI 1] (by decide) 0⟩

end Httpolice
